import Mathlib

/-!
Verification development for the File-Organizer core subsystems:
the disk-visualization tree builders (`src/electron/diskVizScanner.ts` and the
worker in `src/electron/preload.ts`) and the trash journal manager
(`src/electron/main.ts`).

Modelling conventions:
* Strings are Lean `String`; paths use `"/"` as separator (the app targets
  darwin, where `path.sep = "/"`).
* Node's `path.resolve` is modelled by `resolveP` below (segment
  normalization of `"."`, `".."` and empty segments, resolving relative
  paths against a `cwd` parameter).
* `fs.promises.rename` is modelled with POSIX `rename(2)` semantics, the
  semantics Node exposes on darwin/linux: renaming onto an existing
  destination atomically replaces it when the destination is a file (and the
  source is a file) or an empty directory (and the source is a directory);
  it fails with `EISDIR` / `ENOTDIR` / `ENOTEMPTY` otherwise.
* `fs.promises.rm(p, {recursive: true, force: true})` may still fail (e.g.
  `EACCES`); an environment oracle `rmOk : String → Bool` decides whether a
  given `rm` call succeeds.
* Machine integers (sizes, timestamps) are `Nat`: all quantities involved
  are nonnegative and far from any overflow boundary in the source.
-/

namespace FileOrganizer

/-- Boolean test that the list `pre` is an initial segment of `l`
(used to model JavaScript `String.prototype.startsWith`). -/
def listStarts : List Char → List Char → Bool
  | [], _ => true
  | _ :: _, [] => false
  | a :: as, b :: bs => a = b && listStarts as bs

/-- Models JavaScript `s.startsWith(pre)` on Lean strings. -/
def strStarts (pre s : String) : Bool :=
  listStarts pre.data s.data

/-- Models JavaScript `!s.trim()`: `true` iff the string contains only
whitespace (the guard `typeof x !== "string" || !x.trim()` in the IPC
handlers). -/
def isBlank (s : String) : Bool :=
  s.data.all Char.isWhitespace

/-- Splits a character list on `'/'`, keeping empty segments, mirroring how
`path.resolve` tokenizes a path before normalization. -/
def splitOnSlash : List Char → List (List Char)
  | [] => [[]]
  | '/' :: cs => [] :: splitOnSlash cs
  | c :: cs =>
    match splitOnSlash cs with
    | [] => [[c]]
    | seg :: rest => (c :: seg) :: rest

/-- One step of path normalization: skip empty and `"."` segments, pop on
`".."` (staying at the root when already there), push anything else.  The
stack holds segments most-recent-first. -/
def normStep (stack : List (List Char)) (seg : List Char) : List (List Char) :=
  if seg = [] ∨ seg = ['.'] then stack
  else if seg = ['.', '.'] then stack.tail
  else seg :: stack

/-- Joins path segments with `'/'`. -/
def joinSegs : List (List Char) → List Char
  | [] => []
  | [s] => s
  | s :: rest => s ++ '/' :: joinSegs rest

/-- Normalizes an absolute path string: `path.resolve` on an input that is
already absolute. -/
def resolveAbs (p : String) : String :=
  String.mk ('/' :: joinSegs (((splitOnSlash p.data).foldl normStep []).reverse))

/-- Models `path.resolve(p)`: absolute inputs are normalized, relative
inputs are first joined to the current working directory `cwd`. -/
def resolveP (cwd p : String) : String :=
  if strStarts "/" p then resolveAbs p else resolveAbs (cwd ++ "/" ++ p)

/-- Models `path.basename` on a normalized absolute path: the last
non-empty segment, or `""` for the root. -/
def basename (p : String) : String :=
  match ((splitOnSlash p.data).foldl normStep []) with
  | [] => ""
  | seg :: _ => String.mk seg

/-- Hex value of one character, for percent-escape decoding
(`decodeURIComponent`).  Accepts both cases. -/
def hexVal (c : Char) : Option Nat :=
  if 48 ≤ c.toNat ∧ c.toNat ≤ 57 then some (c.toNat - 48)
  else if 65 ≤ c.toNat ∧ c.toNat ≤ 70 then some (c.toNat - 55)
  else if 97 ≤ c.toNat ∧ c.toNat ≤ 102 then some (c.toNat - 87)
  else none

/-- Uppercase hex digit of a value below 16 (`encodeURIComponent` emits
uppercase escapes). -/
def hexDigit (n : Nat) : Char :=
  if n < 10 then Char.ofNat (48 + n) else Char.ofNat (55 + n)

/-- UTF-8 bytes of a code point, as used by `encodeURIComponent` when
escaping a character. -/
def utf8Bytes (n : Nat) : List Nat :=
  if n < 128 then [n]
  else if n < 2048 then [192 + n / 64, 128 + n % 64]
  else if n < 65536 then [224 + n / 4096, 128 + (n / 64) % 64, 128 + n % 64]
  else [240 + n / 262144, 128 + (n / 4096) % 64, 128 + (n / 64) % 64, 128 + n % 64]

/-- Characters `encodeURIComponent` leaves unescaped:
`A-Z a-z 0-9 - _ . ! ~ * ' ( )`. -/
def isUnreserved (c : Char) : Bool :=
  (65 ≤ c.toNat && c.toNat ≤ 90) || (97 ≤ c.toNat && c.toNat ≤ 122) ||
  (48 ≤ c.toNat && c.toNat ≤ 57) ||
  c = '-' || c = '_' || c = '.' || c = '!' || c = '~' || c = '*' ||
  c = Char.ofNat 39 || c = '(' || c = ')'

/-- Percent-escapes a character list, mirroring `encodeURIComponent`. -/
def pctEncode : List Char → List Char
  | [] => []
  | c :: cs =>
    (if isUnreserved c then [c]
     else (utf8Bytes c.toNat).foldr (fun b acc => '%' :: hexDigit (b / 16) :: hexDigit (b % 16) :: acc) []) ++
    pctEncode cs

/-- Tokenizes a percent-escaped character list: each `%HH` escape becomes a
byte token (`Sum.inl`), every other character passes through (`Sum.inr`);
a malformed escape yields `none`. -/
def pctTokens : List Char → Option (List (Sum Nat Char))
  | [] => some []
  | '%' :: a :: b :: rest =>
    match hexVal a, hexVal b with
    | some ha, some hb => (pctTokens rest).map (Sum.inl (16 * ha + hb) :: ·)
    | _, _ => none
  | '%' :: _ => none
  | c :: cs => (pctTokens cs).map (Sum.inr c :: ·)

/-- Checks that a decoded code point is a valid `Char` scalar value. -/
def validScalar (n : Nat) : Bool :=
  decide (n < 55296 ∨ (57344 ≤ n ∧ n ≤ 1114111))

/-- Checks that a byte is a UTF-8 continuation byte. -/
def isCont (b : Nat) : Bool :=
  128 ≤ b && b < 192

/-- Assembles a token stream back into characters: escaped byte runs are
decoded as UTF-8 (continuation bytes must themselves come from escapes, as
in `decodeURIComponent`); invalid sequences yield `none`. -/
def decodeTokens : List (Sum Nat Char) → Option (List Char)
  | [] => some []
  | .inr c :: ts => (decodeTokens ts).map (c :: ·)
  | .inl b :: ts =>
    if b < 128 then (decodeTokens ts).map (Char.ofNat b :: ·)
    else if 192 ≤ b ∧ b < 224 then
      match ts with
      | .inl b1 :: ts' =>
        let v := (b - 192) * 64 + (b1 - 128)
        if isCont b1 && validScalar v then (decodeTokens ts').map (Char.ofNat v :: ·)
        else none
      | _ => none
    else if 224 ≤ b ∧ b < 240 then
      match ts with
      | .inl b1 :: .inl b2 :: ts' =>
        let v := ((b - 224) * 64 + (b1 - 128)) * 64 + (b2 - 128)
        if isCont b1 && isCont b2 && validScalar v then
          (decodeTokens ts').map (Char.ofNat v :: ·)
        else none
      | _ => none
    else if 240 ≤ b ∧ b < 248 then
      match ts with
      | .inl b1 :: .inl b2 :: .inl b3 :: ts' =>
        let v := (((b - 240) * 64 + (b1 - 128)) * 64 + (b2 - 128)) * 64 + (b3 - 128)
        if isCont b1 && isCont b2 && isCont b3 && validScalar v then
          (decodeTokens ts').map (Char.ofNat v :: ·)
        else none
      | _ => none
    else none

/-- Percent-decodes a character list, mirroring `decodeURIComponent`:
`none` models the thrown `URIError` that `decodeSystemTrashId` catches. -/
def pctDecode (cs : List Char) : Option (List Char) :=
  (pctTokens cs).bind decodeTokens

example : resolveP "/cwd" "/a//b/./c/../d" = "/a/b/d" := by decide
example : resolveP "/cwd" "x/y" = "/cwd/x/y" := by decide
example : basename "/a/b/c.txt" = "c.txt" := by decide
example : pctDecode "ab%2Fc".data = some "ab/c".data := by decide
example : String.mk (pctEncode "/a b".data) = "%2Fa%20b" := by decide

-- ── Disk-visualization tree builders ────────────────────────────────

mutual
/-- In-memory filesystem tree: ground truth for `stat` / `readdir`.
`stat` on a `file` reports `isDirectory() = false` and its `size`; on a
`dir` it reports `isDirectory() = true`.  `readdir` on a `dir` lists its
entries in order.  (Error paths of the scanners — `EACCES` etc. — return
zero-size nodes and are outside this modelled state space; symlinks and
other special dirents, which both scanners skip or fold, are likewise not
modelled.) -/
inductive FsTree : Type where
  | file (size : Nat) : FsTree
  | dir (entries : FsEntries) : FsTree

/-- Ordered entry list of a directory, mutually defined with `FsTree`. -/
inductive FsEntries : Type where
  | nil : FsEntries
  | cons (name : String) (t : FsTree) (rest : FsEntries) : FsEntries
end

mutual
/-- Output node of both scanners (`DiskVizNode` in the source).  The
source sets `children: children.length ? children : undefined`, so the
`children` field is present exactly when nonempty: here an empty
`VizForest` stands for `undefined`. -/
inductive VizNode : Type where
  | mk (id : String) (value : Nat) (path : Option String)
      (category : Option String) (children : VizForest) : VizNode

/-- Ordered list of child `VizNode`s, mutually defined with `VizNode`. -/
inductive VizForest : Type where
  | nil : VizForest
  | cons (head : VizNode) (tail : VizForest) : VizForest
end

/-- The `id` field of a `DiskVizNode`. -/
def VizNode.id : VizNode → String
  | .mk i _ _ _ _ => i

/-- The `value` field of a `DiskVizNode`. -/
def VizNode.value : VizNode → Nat
  | .mk _ v _ _ _ => v

/-- The `path` field of a `DiskVizNode`. -/
def VizNode.path : VizNode → Option String
  | .mk _ _ p _ _ => p

/-- The `category` field of a `DiskVizNode`. -/
def VizNode.category : VizNode → Option String
  | .mk _ _ _ c _ => c

/-- The `children` field of a `DiskVizNode` (empty forest = `undefined`). -/
def VizNode.children : VizNode → VizForest
  | .mk _ _ _ _ f => f

/-- Appends two child forests (JavaScript `children.push`). -/
def VizForest.append : VizForest → VizForest → VizForest
  | .nil, g => g
  | .cons n f, g => .cons n (VizForest.append f g)

/-- Sum of the `value` fields of a forest
(`children.reduce((sum, c) => sum + c.value, 0)`). -/
def sumForest : VizForest → Nat
  | .nil => 0
  | .cons n f => n.value + sumForest f

/-- Length of a forest. -/
def VizForest.length : VizForest → Nat
  | .nil => 0
  | .cons _ f => 1 + VizForest.length f

/-- `SMALL_FOLDER_BYTES = 1024 * 1024` (both scanners). -/
def SMALL_FOLDER_BYTES : Nat := 1024 * 1024

/-- `SMALL_FILE_BYTES = 5 * 1024 * 1024` (both scanners). -/
def SMALL_FILE_BYTES : Nat := 5 * 1024 * 1024

/-- `IGNORE_DIRS` from `preload.ts` (fileScanner.worker). -/
def IGNORE_DIRS : List String :=
  ["node_modules", ".git", ".next", "dist", "build", ".cache", "Library"]

/-- `shouldIgnoreDir` from `preload.ts` (fileScanner.worker). -/
def shouldIgnoreDir (name : String) : Bool :=
  IGNORE_DIRS.contains name

/-- Models `path.extname(name).slice(1)`: the substring after the last
`'.'`, empty when there is no dot or the only dot leads the basename
(dotfiles like `.bashrc` have no extension). -/
def extnameNoDot (name : String) : String :=
  let r := name.data.reverse
  let ext := r.takeWhile (fun c => c ≠ '.')
  match r.drop ext.length with
  | [] => ""
  | _ :: before => if before = [] then "" else String.mk ext.reverse

/-- Extension → category table shared by both scanners (`categoryForExt`
in the worker; the same inline chain in `diskVizScanner.buildNode`). -/
def categoryForExt (ext : String) : String :=
  let e := String.mk (ext.data.map Char.toLower)
  if ["js", "ts", "tsx", "jsx", "py", "html", "css", "json"].contains e then "code"
  else if ["jpg", "jpeg", "png", "gif", "webp", "svg", "mp4", "mov", "webm", "avi"].contains e then "media"
  else if ["pdf", "doc", "docx", "txt", "md"].contains e then "docs"
  else if ["dll", "exe", "dmg"].contains e then "system"
  else "other"

mutual
/-- Size probe `getPathSize` (identical logic in `preload.ts` and
`diskVizScanner.ts`): a file contributes its size, a directory the
recursive sum over its entries. -/
def getPathSize : FsTree → Nat
  | .file s => s
  | .dir es => getPathSizeEntries es

/-- Entry loop of `getPathSize`. -/
def getPathSizeEntries : FsEntries → Nat
  | .nil => 0
  | .cons _ t rest => getPathSize t + getPathSizeEntries rest
end

namespace WorkerScan

mutual
/-- Worker tree builder `buildNode` from `preload.ts`
(fileScanner.worker), the builder `app:scanDirectoryForViz` actually
runs.  `r : Nat → String` models the stream of
`Math.random().toString(36).substr(2, 9)` suffixes and `k` the index of
the next draw; the result pairs the built node with the updated index. -/
def buildNode (r : Nat → String) (k : Nat) (currentPath name : String)
    (t : FsTree) (remainingDepth : Nat) : VizNode × Nat :=
  match t with
  | .file s =>
    (.mk name s (some currentPath) (some (categoryForExt (extnameNoDot name))) .nil, k)
  | .dir es =>
    let pe := processEntries r k currentPath es remainingDepth
    let f := pe.1
    let other := pe.2.1
    let misc := pe.2.2.1
    let k1 := pe.2.2.2
    let f1 := if misc > 0 then
        f.append (.cons (.mk ("misc-other-" ++ r k1) misc (some currentPath) (some "other") .nil) .nil)
      else f
    let k2 := if misc > 0 then k1 + 1 else k1
    let f2 := if other > 0 then
        f1.append (.cons (.mk ("other-folders-" ++ r k2) other (some currentPath) (some "other") .nil) .nil)
      else f1
    let k3 := if other > 0 then k2 + 1 else k2
    (.mk name (sumForest f2) (some currentPath) (some "folder") f2, k3)

/-- Entry loop of the worker `buildNode`: returns the accumulated child
forest, `otherFolderSize`, `miscFileSize`, and the updated random-draw
index. -/
def processEntries (r : Nat → String) (k : Nat) (currentPath : String)
    (es : FsEntries) (remainingDepth : Nat) : VizForest × Nat × Nat × Nat :=
  match es with
  | .nil => (.nil, 0, 0, k)
  | .cons n t rest =>
    let safeName := if n = "" then "unnamed" else n
    match t with
    | .dir _ =>
      if shouldIgnoreDir n then
        let pr := processEntries r k currentPath rest remainingDepth
        (pr.1, getPathSize t + pr.2.1, pr.2.2.1, pr.2.2.2)
      else
        let childSize := getPathSize t
        if remainingDepth ≤ 0 ∨ childSize < SMALL_FOLDER_BYTES then
          let pr := processEntries r k currentPath rest remainingDepth
          (pr.1, childSize + pr.2.1, pr.2.2.1, pr.2.2.2)
        else
          let bn := buildNode r k (currentPath ++ "/" ++ n) safeName t (remainingDepth - 1)
          let pr := processEntries r bn.2 currentPath rest remainingDepth
          (.cons bn.1 pr.1, pr.2.1, pr.2.2.1, pr.2.2.2)
    | .file s =>
      if s < SMALL_FILE_BYTES then
        let pr := processEntries r k currentPath rest remainingDepth
        (pr.1, pr.2.1, s + pr.2.2.1, pr.2.2.2)
      else
        let node := VizNode.mk safeName s (some (currentPath ++ "/" ++ n))
          (some (categoryForExt (extnameNoDot n))) .nil
        let pr := processEntries r k currentPath rest remainingDepth
        (.cons node pr.1, pr.2.1, pr.2.2.1, pr.2.2.2)
end

end WorkerScan

namespace DiskViz

mutual
/-- Tree builder `buildNode` from `diskVizScanner.ts`
(`scanDirectoryForViz`): no ignore list, no randomness, bucket nodes
labelled literally `"Misc / Other"` and `"Other Folders"`.  Oversize
files recurse through `buildNode(fullPath, safeName, 0)` exactly as the
source does. -/
def buildNode (currentPath name : String) (t : FsTree) (remainingDepth : Nat) : VizNode :=
  match t with
  | .file s =>
    .mk name s (some currentPath) (some (categoryForExt (extnameNoDot name))) .nil
  | .dir es =>
    let pe := processEntries currentPath es remainingDepth
    let f := pe.1
    let other := pe.2.1
    let misc := pe.2.2
    let f1 := if misc > 0 then
        f.append (.cons (.mk "Misc / Other" misc (some currentPath) (some "other") .nil) .nil)
      else f
    let f2 := if other > 0 then
        f1.append (.cons (.mk "Other Folders" other (some currentPath) (some "other") .nil) .nil)
      else f1
    .mk name (sumForest f2) (some currentPath) (some "folder") f2

/-- Entry loop of `diskVizScanner.buildNode`: child forest,
`otherFolderSize`, `miscFileSize`.  Non-file entries take the directory
branch, as in the source's `if (entry.isFile()) ... else ...`. -/
def processEntries (currentPath : String) (es : FsEntries)
    (remainingDepth : Nat) : VizForest × Nat × Nat :=
  match es with
  | .nil => (.nil, 0, 0)
  | .cons n t rest =>
    let safeName := if n = "" then "unnamed" else n
    match t with
    | .file s =>
      if s < SMALL_FILE_BYTES then
        let pr := processEntries currentPath rest remainingDepth
        (pr.1, pr.2.1, s + pr.2.2)
      else
        let fileNode := buildNode (currentPath ++ "/" ++ n) safeName t 0
        let pr := processEntries currentPath rest remainingDepth
        (.cons fileNode pr.1, pr.2.1, pr.2.2)
    | .dir _ =>
      let childSize := getPathSize t
      if remainingDepth ≤ 0 ∨ childSize < SMALL_FOLDER_BYTES then
        let pr := processEntries currentPath rest remainingDepth
        (pr.1, childSize + pr.2.1, pr.2.2)
      else
        let child := buildNode (currentPath ++ "/" ++ n) safeName t (remainingDepth - 1)
        let pr := processEntries currentPath rest remainingDepth
        (.cons child pr.1, pr.2.1, pr.2.2)
end

end DiskViz

example :
    DiskViz.buildNode "/r" "r"
      (.dir (.cons "a.txt" (.file 1024) (.cons "big.bin" (.file 6291456) .nil))) 2
    = .mk "r" 6292480 (some "/r") (some "folder")
        (.cons (.mk "big.bin" 6291456 (some "/r/big.bin") (some "other") .nil)
          (.cons (.mk "Misc / Other" 1024 (some "/r") (some "other") .nil) .nil)) := by
  rfl

example :
    (WorkerScan.buildNode (fun n => ["0", "1", "2", "3"].getD n "z") 0 "/r" "r"
      (.dir (.cons "sub" (.dir (.cons "x" (.file 2097152) .nil))
        (.cons "a.txt" (.file 7) .nil))) 2).1
    = .mk "r" 2097159 (some "/r") (some "folder")
        (.cons (.mk "sub" 2097152 (some "/r/sub") (some "folder")
            (.cons (.mk "misc-other-0" 2097152 (some "/r/sub") (some "other") .nil) .nil))
          (.cons (.mk "misc-other-1" 7 (some "/r") (some "other") .nil) .nil)) := by
  rfl


-- ── Trash journal manager ───────────────────────────────────────────

/-- A filesystem object moved around by the trash manager.  Payload and
occupant contents are opaque (`data`); for directories `isEmpty` records
whether `rename` may atomically replace them. -/
inductive FObj : Type where
  | file (data : Nat) : FObj
  | dir (isEmpty : Bool) (data : Nat) : FObj
deriving DecidableEq, Repr

/-- `stat.isDirectory()` of an object. -/
def FObj.isDirectory : FObj → Bool
  | .file _ => false
  | .dir _ _ => true

/-- `stat.size` of an object (opaque for directories, as in the source,
which records whatever `stat` reports). -/
def FObj.statSize : FObj → Nat
  | .file d => d
  | .dir _ d => d

/-- POSIX `rename(2)` destination check (the semantics of
`fs.promises.rename` on darwin): a free destination is fine; an existing
file is atomically replaced iff the source is a file; an existing empty
directory is replaced iff the source is a directory; a non-empty
directory destination always fails (`ENOTEMPTY`). -/
def canReplace (src : FObj) : Option FObj → Bool
  | none => true
  | some (.file _) => !src.isDirectory
  | some (.dir isEmpty _) => src.isDirectory && isEmpty

/-- `TrashManifestEntry` from `main.ts`. -/
structure TrashManifestEntry : Type where
  id : String
  name : String
  originalPath : String
  storedName : String
  trashedAt : Nat
  size : Nat
  isDirectory : Bool
deriving DecidableEq, Repr

/-- One top-level entry of the OS-native trash directory (what
`readdir(systemTrashDir)` enumerates), with its `stat.mtimeMs`. -/
structure SysItem : Type where
  name : String
  mtimeMs : Nat
  obj : FObj
deriving DecidableEq, Repr

/-- Source tag of a listed trash item (`TrashItemSource`). -/
inductive Source : Type where
  | app : Source
  | system : Source
deriving DecidableEq, Repr

/-- `TrashListItem` from `main.ts`. -/
structure TrashListItem : Type where
  id : String
  name : String
  originalPath : String
  trashedAt : Nat
  size : Nat
  isDirectory : Bool
  source : Source
deriving DecidableEq, Repr

/-- State the trash handlers act on.  `fsOutside` maps absolute paths
outside the trash roots to the objects living there (the filesystem has
one object per path, so removal drops every binding of the path);
`trashFiles` maps `storedName`s to payloads under
`~/.nexus-trash/files`; `manifest` is the persisted journal; `sysItems`
are the top-level entries of the OS-native trash. -/
structure TrashState : Type where
  fsOutside : List (String × FObj)
  trashFiles : List (String × FObj)
  manifest : List TrashManifestEntry
  sysItems : List SysItem
deriving DecidableEq, Repr

/-- Looks up the object at a path (`stat` succeeding iff `some`). -/
def lookupFs : List (String × FObj) → String → Option FObj
  | [], _ => none
  | e :: rest, p => if e.1 == p then some e.2 else lookupFs rest p

/-- Removes every binding of a path (the filesystem holds one object per
path, so a rename or removal leaves nothing behind at the source). -/
def removeFs : List (String × FObj) → String → List (String × FObj)
  | [], _ => []
  | e :: rest, p => if e.1 == p then removeFs rest p else e :: removeFs rest p

/-- Places an object at a path, replacing any previous occupant. -/
def insertFs (fs : List (String × FObj)) (p : String) (o : FObj) : List (String × FObj) :=
  (p, o) :: removeFs fs p

/-- `TRASH_DIR = path.join(home, ".nexus-trash")`. -/
def TRASH_DIR (home : String) : String := home ++ "/.nexus-trash"

/-- `TRASH_FILES_DIR = path.join(TRASH_DIR, "files")`. -/
def TRASH_FILES_DIR (home : String) : String := TRASH_DIR home ++ "/files"

/-- `getSystemTrashDir()` on darwin: `path.join(home, ".Trash")` (the
modelled platform; on other platforms the source returns `null` and
every system-trash operation is a no-op). -/
def getSystemTrashDir (home : String) : String := home ++ "/.Trash"

/-- `encodeSystemTrashId` from `main.ts`:
`"sys:" + encodeURIComponent(absolutePath)`. -/
def encodeSystemTrashId (absolutePath : String) : String :=
  "sys:" ++ String.mk (pctEncode absolutePath.data)

/-- `decodeSystemTrashId` from `main.ts`: strips the `"sys:"` tag and
percent-decodes; `none` models both the missing tag and a thrown
`URIError`. -/
def decodeSystemTrashId (id : String) : Option String :=
  if strStarts "sys:" id then (pctDecode (id.data.drop 4)).map String.mk else none

/-- `isPathInside` from `main.ts`:
`target === parent || target.startsWith(parent + path.sep)` after
`path.resolve` on both. -/
def isPathInside (cwd parentDir targetPath : String) : Bool :=
  let parent := resolveP cwd parentDir
  let target := resolveP cwd targetPath
  target == parent || strStarts (parent ++ "/") target

/-- First manifest entry with the given id
(`manifest.findIndex((e) => e.id === id)`). -/
def findById : List TrashManifestEntry → String → Option TrashManifestEntry
  | [], _ => none
  | e :: rest, i => if e.id == i then some e else findById rest i

/-- Drops the first manifest entry with the given id
(`manifest.splice(idx, 1)`). -/
def removeFirstById : List TrashManifestEntry → String → List TrashManifestEntry
  | [], _ => []
  | e :: rest, i => if e.id == i then rest else e :: removeFirstById rest i

/-- Whether `rm(rmTarget, {recursive: true})` removes the object at
`itemPath`: the item's path equals the removed path or lies inside it. -/
def rmRemoves (cwd rmTarget itemPath : String) : Bool :=
  let rp := resolveP cwd rmTarget
  itemPath == rp || strStarts (rp ++ "/") itemPath

/-- Effect of `rm(decoded, {recursive: true, force: true})` on the
enumerated system-trash entries. -/
def rmSys (cwd home decoded : String) (items : List SysItem) : List SysItem :=
  items.filter (fun it => !(rmRemoves cwd decoded (getSystemTrashDir home ++ "/" ++ it.name)))

/-- The `app:moveToTrash` handler: stat the resolved path (failure →
`false`, no change), build `storedName = id + "_" + basename`, rename the
object into the trash payload dir, append the manifest entry, persist.
`newId` models the fresh `randomUUID()`, `now` the `Date.now()` clock. -/
def moveToTrash (cwd : String) (newId : String) (now : Nat)
    (st : TrashState) (filePath : String) : Bool × TrashState :=
  if isBlank filePath then (false, st)
  else
    let resolved := resolveP cwd filePath
    match lookupFs st.fsOutside resolved with
    | none => (false, st)
    | some obj =>
      let name := basename resolved
      let storedName := newId ++ "_" ++ name
      if canReplace obj (lookupFs st.trashFiles storedName) then
        let entry : TrashManifestEntry :=
          ⟨newId, name, resolved, storedName, now, obj.statSize, obj.isDirectory⟩
        (true,
          { st with
            fsOutside := removeFs st.fsOutside resolved
            trashFiles := insertFs st.trashFiles storedName obj
            manifest := st.manifest ++ [entry] })
      else (false, st)

/-- The `app:restoreFromTrash` handler: blank and `sys:`-tagged ids are
rejected; otherwise the first matching manifest entry's payload is
renamed back to `originalPath` (the `mkdir(parentDir, {recursive:true})`
step is a no-op in this flat model) and the entry is spliced out and
persisted; any failure leaves the state unchanged. -/
def restoreFromTrash (st : TrashState) (id : String) : Bool × TrashState :=
  if isBlank id then (false, st)
  else if strStarts "sys:" id then (false, st)
  else
    match findById st.manifest id with
    | none => (false, st)
    | some entry =>
      match lookupFs st.trashFiles entry.storedName with
      | none => (false, st)
      | some obj =>
        if canReplace obj (lookupFs st.fsOutside entry.originalPath) then
          (true,
            { st with
              fsOutside := insertFs st.fsOutside entry.originalPath obj
              trashFiles := removeFs st.trashFiles entry.storedName
              manifest := removeFirstById st.manifest id })
        else (false, st)

/-- The `app:permanentlyDelete` handler.  For a `sys:` id the decoded
path must pass `isPathInside(systemTrashDir, decoded)`; then
`rm(decoded)` runs (success decided by the `rmOk` oracle; a throw is
caught and yields `false` with no change).  For an app id the stored
payload is removed and the entry spliced out. -/
def permanentlyDelete (cwd home : String) (rmOk : String → Bool)
    (st : TrashState) (id : String) : Bool × TrashState :=
  if isBlank id then (false, st)
  else if strStarts "sys:" id then
    let systemTrashDir := getSystemTrashDir home
    match decodeSystemTrashId id with
    | none => (false, st)
    | some decodedPath =>
      if !isPathInside cwd systemTrashDir decodedPath then (false, st)
      else if rmOk decodedPath then
        (true, { st with sysItems := rmSys cwd home decodedPath st.sysItems })
      else (false, st)
  else
    match findById st.manifest id with
    | none => (false, st)
    | some entry =>
      let itemPath := TRASH_FILES_DIR home ++ "/" ++ entry.storedName
      if rmOk itemPath then
        (true,
          { st with
            trashFiles := removeFs st.trashFiles entry.storedName
            manifest := removeFirstById st.manifest id })
      else (false, st)

/-- `listSystemTrashItems` from `main.ts`: the top-level entries of the
OS-native trash, minus Finder's `.DS_Store`, each tagged `system` with a
`sys:`-encoded id; `mtimeMs || Date.now()` maps a zero mtime to `now`. -/
def listSystemTrashItems (home : String) (now : Nat) (st : TrashState) : List TrashListItem :=
  (st.sysItems.filter (fun it => !(it.name == ".DS_Store"))).map (fun it =>
    { id := encodeSystemTrashId (getSystemTrashDir home ++ "/" ++ it.name)
      name := it.name
      originalPath := "System Trash (macOS)"
      trashedAt := if it.mtimeMs = 0 then now else it.mtimeMs
      size := it.obj.statSize
      isDirectory := it.obj.isDirectory
      source := .system })

/-- Stable insertion of an item into a list sorted by `trashedAt`
descending (the element being inserted comes from an earlier position,
so among equal keys it goes first). -/
def insertDesc (x : TrashListItem) : List TrashListItem → List TrashListItem
  | [] => [x]
  | y :: ys => if y.trashedAt ≤ x.trashedAt then x :: y :: ys else y :: insertDesc x ys

/-- Stable sort by `trashedAt` descending, modelling
`.sort((a, b) => b.trashedAt - a.trashedAt)` (V8's `Array.sort` is
stable). -/
def sortDesc : List TrashListItem → List TrashListItem
  | [] => []
  | x :: xs => insertDesc x (sortDesc xs)

/-- The `app:listTrashItems` handler: app-owned manifest entries tagged
`app`, unioned with the live-enumerated system items, sorted by
`trashedAt` descending. -/
def listTrashItems (home : String) (now : Nat) (st : TrashState) : List TrashListItem :=
  sortDesc
    ((st.manifest.map (fun e =>
      { id := e.id, name := e.name, originalPath := e.originalPath,
        trashedAt := e.trashedAt, size := e.size, isDirectory := e.isDirectory,
        source := Source.app })) ++ listSystemTrashItems home now st)

/-- The `app:emptyTrash` handler: best-effort `rm` of every app payload
(each failure swallowed by `.catch(() => {})`), unconditional
`writeManifest([])`, then best-effort `rm` of every enumerated
system-trash item (ids decoded back through `decodeSystemTrashId`). -/
def emptyTrash (cwd home : String) (rmOk : String → Bool)
    (st : TrashState) : Bool × TrashState :=
  let filesDir := TRASH_FILES_DIR home
  let trashFiles1 := st.manifest.foldl
    (fun tf e => if rmOk (filesDir ++ "/" ++ e.storedName) then removeFs tf e.storedName else tf)
    st.trashFiles
  let sysPaths := (st.sysItems.filter (fun it => !(it.name == ".DS_Store"))).filterMap
    (fun it => decodeSystemTrashId (encodeSystemTrashId (getSystemTrashDir home ++ "/" ++ it.name)))
  let removed := sysPaths.filter rmOk
  let sysItems1 := st.sysItems.filter (fun it =>
    !(removed.any (fun dp => rmRemoves cwd dp (getSystemTrashDir home ++ "/" ++ it.name))))
  (true, { st with trashFiles := trashFiles1, manifest := [], sysItems := sysItems1 })

example :
    (moveToTrash "/" "u1" 5
      { fsOutside := [("/a/f.txt", .file 9)], trashFiles := [], manifest := [], sysItems := [] }
      "/a/f.txt")
    = (true,
      { fsOutside := [], trashFiles := [("u1_f.txt", .file 9)],
        manifest := [⟨"u1", "f.txt", "/a/f.txt", "u1_f.txt", 5, 9, false⟩], sysItems := [] }) := by
  decide

example :
    (restoreFromTrash
      { fsOutside := [], trashFiles := [("u1_f.txt", FObj.file 9)],
        manifest := [⟨"u1", "f.txt", "/a/f.txt", "u1_f.txt", 5, 9, false⟩], sysItems := [] }
      "u1")
    = (true,
      { fsOutside := [("/a/f.txt", FObj.file 9)], trashFiles := [],
        manifest := [], sysItems := [] }) := by
  decide


-- ── Shared lemmas ───────────────────────────────────────────────────

theorem mem_insertDesc (a x : TrashListItem) (l : List TrashListItem) :
    a ∈ insertDesc x l ↔ a = x ∨ a ∈ l := by
  induction l with
  | nil => simp [insertDesc]
  | cons y ys ih =>
    by_cases h : y.trashedAt ≤ x.trashedAt
    · simp [insertDesc, h]
    · simp [insertDesc, h, ih]
      tauto

theorem mem_sortDesc (a : TrashListItem) (l : List TrashListItem) :
    a ∈ sortDesc l ↔ a ∈ l := by
  induction l with
  | nil => simp [sortDesc]
  | cons x xs ih => simp [sortDesc, mem_insertDesc, ih]

theorem listStarts_append_self (l m : List Char) :
    listStarts l (l ++ m) = true := by
  induction l with
  | nil => simp [listStarts]
  | cons a as ih => simp [listStarts, ih]

theorem strStarts_append_self (a b : String) :
    strStarts a (a ++ b) = true := by
  unfold strStarts
  rw [String.data_append]
  exact listStarts_append_self a.data b.data

theorem isBlank_false_of_sys (id : String) (h : strStarts "sys:" id = true) :
    isBlank id = false := by
  unfold strStarts at h
  have hsys : ("sys:" : String).data = ['s', 'y', 's', ':'] := rfl
  rw [hsys] at h
  unfold isBlank
  cases hd : id.data with
  | nil => rw [hd] at h; simp [listStarts] at h
  | cons b bs =>
    rw [hd] at h
    simp [listStarts] at h
    obtain ⟨hb, -⟩ := h
    simp [List.all_cons, ← hb]

theorem lookupFs_insert_self (fs : List (String × FObj)) (p : String) (o : FObj) :
    lookupFs (insertFs fs p o) p = some o := by
  simp [lookupFs, insertFs]

theorem lookupFs_remove_self (fs : List (String × FObj)) (p : String) :
    lookupFs (removeFs fs p) p = none := by
  induction fs with
  | nil => rfl
  | cons e rest ih =>
    by_cases h : e.1 = p
    · simpa [removeFs, h] using ih
    · simpa [removeFs, lookupFs, h] using ih

theorem findById_append_last (l : List TrashManifestEntry) (e : TrashManifestEntry)
    (i : String) (hl : ∀ x ∈ l, x.id ≠ i) (he : e.id = i) :
    findById (l ++ [e]) i = some e := by
  induction l with
  | nil => simp [findById, he]
  | cons x rest ih =>
    have hx : x.id ≠ i := hl x (by simp)
    simp [findById, hx]
    exact ih (fun y hy => hl y (by simp [hy]))

theorem removeFirstById_append_last (l : List TrashManifestEntry) (e : TrashManifestEntry)
    (i : String) (hl : ∀ x ∈ l, x.id ≠ i) (he : e.id = i) :
    removeFirstById (l ++ [e]) i = l := by
  induction l with
  | nil => simp [removeFirstById, he]
  | cons x rest ih =>
    have hx : x.id ≠ i := hl x (by simp)
    simp [removeFirstById, hx]
    exact ih (fun y hy => hl y (by simp [hy]))

-- ── C9 ──────────────────────────────────────────────────────────────

/-- C9: for every id string carrying the system-trash `"sys:"` tag,
`restoreFromTrash` returns `false` and leaves the state — manifest,
filesystem, and OS-native trash — unchanged; only app-owned manifest
entries can be restored. -/
theorem restore_sys_id_rejected (st : TrashState) (id : String)
    (h : strStarts "sys:" id = true) :
    restoreFromTrash st id = (false, st) := by
  unfold restoreFromTrash
  rw [isBlank_false_of_sys id h, h]
  simp

/-- Witness for C9 at a concrete state and id. -/
theorem restore_sys_id_rejected_witness :
    strStarts "sys:" "sys:%2Ffoo" = true ∧
    restoreFromTrash
      ⟨[("/x", FObj.file 1)], [("a_b", FObj.file 2)],
        [⟨"a", "b", "/x/b", "a_b", 1, 2, false⟩], [⟨"foo", 3, FObj.file 4⟩]⟩
      "sys:%2Ffoo"
    = (false,
      ⟨[("/x", FObj.file 1)], [("a_b", FObj.file 2)],
        [⟨"a", "b", "/x/b", "a_b", 1, 2, false⟩], [⟨"foo", 3, FObj.file 4⟩]⟩) :=
  ⟨by decide,
    restore_sys_id_rejected
      ⟨[("/x", FObj.file 1)], [("a_b", FObj.file 2)],
        [⟨"a", "b", "/x/b", "a_b", 1, 2, false⟩], [⟨"foo", 3, FObj.file 4⟩]⟩
      "sys:%2Ffoo" (by decide)⟩

-- ── C8 ──────────────────────────────────────────────────────────────

/-- C8: `emptyTrash` returns `true` for every state and every outcome of
the individual `rm` calls (each failure is swallowed), resets the
persisted manifest to the empty list unconditionally, and afterwards the
listing contains no app-owned entries — also when some payload was
already missing out-of-band (such a state is just another `TrashState`
covered by the universal quantifier). -/
theorem emptyTrash_resets_manifest (cwd home : String) (rmOk : String → Bool)
    (now : Nat) (st : TrashState) :
    (emptyTrash cwd home rmOk st).1 = true ∧
    (emptyTrash cwd home rmOk st).2.manifest = [] ∧
    ∀ it ∈ listTrashItems home now (emptyTrash cwd home rmOk st).2,
      it.source = Source.system := by
  refine ⟨rfl, rfl, ?_⟩
  intro it hit
  have hm : (emptyTrash cwd home rmOk st).2.manifest = [] := rfl
  unfold listTrashItems at hit
  rw [mem_sortDesc, hm] at hit
  simp only [List.map_nil, List.nil_append] at hit
  unfold listSystemTrashItems at hit
  rw [List.mem_map] at hit
  obtain ⟨x, -, rfl⟩ := hit
  rfl


-- ── C3 ──────────────────────────────────────────────────────────────

/-- C3 counterexample: an id encoding exactly the OS-native trash root is
NOT strictly contained in the trash root, yet `permanentlyDelete` accepts
it (the guard `target === parent || target.startsWith(parent + sep)`
passes on equality), removes everything beneath the root, and returns
`true` — the claim requires `false` and no removal here. -/
theorem permanentlyDelete_accepts_trash_root :
    permanentlyDelete "/" "/Users/u" (fun _ => true)
      ⟨[], [], [], [⟨"doc.txt", 3, FObj.file 5⟩]⟩ "sys:/Users/u/.Trash"
    = (true, ⟨[], [], [], []⟩) := by decide

/-- C3 (amended): for every `sys:`-tagged id, `permanentlyDelete` removes
the decoded path only when that path is inside **or equal to** the
OS-native trash root: when decoding fails or the decoded path is neither
equal to nor inside the root, the call returns `false` and removes
nothing; when the decoded path passes that containment check and the
underlying `rm` succeeds, the call removes exactly the subtree of the
decoded path from the enumerated trash and returns `true` (and `false`
with no change when `rm` throws). -/
theorem permanentlyDelete_sys_containment (cwd home : String) (rmOk : String → Bool)
    (st : TrashState) (id : String) (h : strStarts "sys:" id = true) :
    (decodeSystemTrashId id = none → permanentlyDelete cwd home rmOk st id = (false, st)) ∧
    (∀ d, decodeSystemTrashId id = some d →
      isPathInside cwd (getSystemTrashDir home) d = false →
      permanentlyDelete cwd home rmOk st id = (false, st)) ∧
    (∀ d, decodeSystemTrashId id = some d →
      isPathInside cwd (getSystemTrashDir home) d = true →
      rmOk d = false →
      permanentlyDelete cwd home rmOk st id = (false, st)) ∧
    (∀ d, decodeSystemTrashId id = some d →
      isPathInside cwd (getSystemTrashDir home) d = true →
      rmOk d = true →
      permanentlyDelete cwd home rmOk st id =
        (true, { st with sysItems := rmSys cwd home d st.sysItems })) := by
  refine ⟨?_, ?_, ?_, ?_⟩
  · intro hd
    unfold permanentlyDelete
    rw [isBlank_false_of_sys id h, h, hd]
    simp
  · intro d hd hin
    unfold permanentlyDelete
    rw [isBlank_false_of_sys id h, h, hd]
    simp [hin]
  · intro d hd hin hrm
    unfold permanentlyDelete
    rw [isBlank_false_of_sys id h, h, hd]
    simp [hin, hrm]
  · intro d hd hin hrm
    unfold permanentlyDelete
    rw [isBlank_false_of_sys id h, h, hd]
    simp [hin, hrm]

/-- Witness for C3's amended theorem: a crafted id decoding to a path
outside the trash root is rejected with no state change. -/
theorem permanentlyDelete_sys_containment_witness :
    strStarts "sys:" "sys:%2Fetc%2Fpasswd" = true ∧
    decodeSystemTrashId "sys:%2Fetc%2Fpasswd" = some "/etc/passwd" ∧
    isPathInside "/" (getSystemTrashDir "/Users/u") "/etc/passwd" = false ∧
    permanentlyDelete "/" "/Users/u" (fun _ => true)
      ⟨[], [], [], [⟨"doc.txt", 3, FObj.file 5⟩]⟩ "sys:%2Fetc%2Fpasswd"
    = (false, ⟨[], [], [], [⟨"doc.txt", 3, FObj.file 5⟩]⟩) :=
  ⟨by decide, by decide, by decide,
    (permanentlyDelete_sys_containment "/" "/Users/u" (fun _ => true)
      ⟨[], [], [], [⟨"doc.txt", 3, FObj.file 5⟩]⟩ "sys:%2Fetc%2Fpasswd"
      (by decide)).2.1 "/etc/passwd" (by decide) (by decide)⟩

-- ── C4 ──────────────────────────────────────────────────────────────

/-- C4 counterexample: restoring onto an occupied `originalPath` whose
occupant is a plain file: `fs.promises.rename` atomically replaces the
occupant (POSIX semantics), so `restoreFromTrash` returns `true`,
overwrites the occupant (`file 9` becomes the payload `file 7`), and
drops the manifest entry — the claim requires `false`, no overwrite, and
a surviving entry. -/
theorem restore_overwrites_file_occupant :
    restoreFromTrash
      ⟨[("/a/f", FObj.file 9)], [("e1_f", FObj.file 7)],
        [⟨"e1", "f", "/a/f", "e1_f", 0, 7, false⟩], []⟩ "e1"
    = (true, ⟨[("/a/f", FObj.file 7)], [], [], []⟩) := by decide

/-- C4 (amended): when an app-owned entry's `originalPath` is occupied at
restore time, the outcome follows `rename(2)` replaceability: if the
occupant cannot be replaced (it is a non-empty directory, or its kind
differs from the payload's), the restore returns `false`, does not
overwrite, and leaves the entry in the manifest; if the occupant is
replaceable (file over file, or directory over empty directory), the
restore returns `true` and silently overwrites the occupant. -/
theorem restore_collision_behaviour (st : TrashState) (id : String)
    (entry : TrashManifestEntry) (obj occ : FObj)
    (hb : isBlank id = false) (hs : strStarts "sys:" id = false)
    (hf : findById st.manifest id = some entry)
    (hp : lookupFs st.trashFiles entry.storedName = some obj)
    (ho : lookupFs st.fsOutside entry.originalPath = some occ) :
    (canReplace obj (some occ) = false → restoreFromTrash st id = (false, st)) ∧
    (canReplace obj (some occ) = true →
      restoreFromTrash st id =
        (true,
          { st with
            fsOutside := insertFs st.fsOutside entry.originalPath obj
            trashFiles := removeFs st.trashFiles entry.storedName
            manifest := removeFirstById st.manifest id })) := by
  constructor
  · intro hc
    simp [restoreFromTrash, hb, hs, hf, hp, ho, hc]
  · intro hc
    simp [restoreFromTrash, hb, hs, hf, hp, ho, hc]

/-- Witness for C4's amended theorem: a non-empty-directory occupant
makes the restore fail with no overwrite and the entry retained. -/
theorem restore_collision_behaviour_witness :
    restoreFromTrash
      ⟨[("/a/f", FObj.dir false 1)], [("e1_f", FObj.file 7)],
        [⟨"e1", "f", "/a/f", "e1_f", 0, 7, false⟩], []⟩ "e1"
    = (false,
      ⟨[("/a/f", FObj.dir false 1)], [("e1_f", FObj.file 7)],
        [⟨"e1", "f", "/a/f", "e1_f", 0, 7, false⟩], []⟩) :=
  (restore_collision_behaviour
    ⟨[("/a/f", FObj.dir false 1)], [("e1_f", FObj.file 7)],
      [⟨"e1", "f", "/a/f", "e1_f", 0, 7, false⟩], []⟩ "e1"
    ⟨"e1", "f", "/a/f", "e1_f", 0, 7, false⟩ (FObj.file 7) (FObj.dir false 1)
    (by decide) (by decide) (by decide) (by decide) (by decide)).1 (by decide)


-- ── C1 ──────────────────────────────────────────────────────────────

theorem strStarts_encode_sys (pth : String) :
    strStarts "sys:" (encodeSystemTrashId pth) = true :=
  strStarts_append_self "sys:" (String.mk (pctEncode pth.data))

/-- C1: when `moveToTrash(p)` succeeds (the path stats, and the fresh
`randomUUID` is globally new: its stored name is unused, no manifest
entry carries it, and it does not collide with the `sys:` tag — all facts
true of a v4 UUID), a subsequent `restoreFromTrash` with the id assigned
at soft-delete time, with no intervening trash operation or external
mutation, returns `true`, moves the stored payload back so the original
content sits at the resolved path `p` again (and is gone from the trash
payload dir), and the id no longer appears in `listTrashItems()`. -/
theorem moveToTrash_restore_roundtrip
    (cwd home newId p : String) (now now2 : Nat)
    (st : TrashState) (obj : FObj)
    (hstat : lookupFs st.fsOutside (resolveP cwd p) = some obj)
    (hfresh : lookupFs st.trashFiles (newId ++ "_" ++ basename (resolveP cwd p)) = none)
    (hids : ∀ e ∈ st.manifest, e.id ≠ newId)
    (hsys : strStarts "sys:" newId = false)
    (hnb : isBlank newId = false)
    (hpb : isBlank p = false) :
    (moveToTrash cwd newId now st p).1 = true ∧
    (restoreFromTrash (moveToTrash cwd newId now st p).2 newId).1 = true ∧
    lookupFs (restoreFromTrash (moveToTrash cwd newId now st p).2 newId).2.fsOutside
      (resolveP cwd p) = some obj ∧
    lookupFs (restoreFromTrash (moveToTrash cwd newId now st p).2 newId).2.trashFiles
      (newId ++ "_" ++ basename (resolveP cwd p)) = none ∧
    ∀ it ∈ listTrashItems home now2 (restoreFromTrash (moveToTrash cwd newId now st p).2 newId).2,
      it.id ≠ newId := by
  have hm : moveToTrash cwd newId now st p =
      (true,
        { st with
          fsOutside := removeFs st.fsOutside (resolveP cwd p)
          trashFiles := insertFs st.trashFiles
            (newId ++ "_" ++ basename (resolveP cwd p)) obj
          manifest := st.manifest ++
            [⟨newId, basename (resolveP cwd p), resolveP cwd p,
              newId ++ "_" ++ basename (resolveP cwd p), now, obj.statSize,
              obj.isDirectory⟩] }) := by
    simp [moveToTrash, hpb, hstat, hfresh, canReplace]
  rw [hm]
  have hfind :
      findById
        (st.manifest ++
          [⟨newId, basename (resolveP cwd p), resolveP cwd p,
            newId ++ "_" ++ basename (resolveP cwd p), now, obj.statSize,
            obj.isDirectory⟩]) newId
      = some
        ⟨newId, basename (resolveP cwd p), resolveP cwd p,
          newId ++ "_" ++ basename (resolveP cwd p), now, obj.statSize,
          obj.isDirectory⟩ :=
    findById_append_last st.manifest _ newId hids rfl
  have hrem :
      removeFirstById
        (st.manifest ++
          [⟨newId, basename (resolveP cwd p), resolveP cwd p,
            newId ++ "_" ++ basename (resolveP cwd p), now, obj.statSize,
            obj.isDirectory⟩]) newId = st.manifest :=
    removeFirstById_append_last st.manifest _ newId hids rfl
  have hr :
      restoreFromTrash
        { st with
          fsOutside := removeFs st.fsOutside (resolveP cwd p)
          trashFiles := insertFs st.trashFiles
            (newId ++ "_" ++ basename (resolveP cwd p)) obj
          manifest := st.manifest ++
            [⟨newId, basename (resolveP cwd p), resolveP cwd p,
              newId ++ "_" ++ basename (resolveP cwd p), now, obj.statSize,
              obj.isDirectory⟩] } newId =
      (true,
        { st with
          fsOutside := insertFs (removeFs st.fsOutside (resolveP cwd p))
            (resolveP cwd p) obj
          trashFiles := removeFs
            (insertFs st.trashFiles (newId ++ "_" ++ basename (resolveP cwd p)) obj)
            (newId ++ "_" ++ basename (resolveP cwd p))
          manifest := st.manifest }) := by
    simp [restoreFromTrash, hnb, hsys, hfind, hrem,
      lookupFs_insert_self, lookupFs_remove_self, canReplace]
  rw [hr]
  refine ⟨rfl, rfl, lookupFs_insert_self _ _ _, lookupFs_remove_self _ _, ?_⟩
  intro it hit
  unfold listTrashItems at hit
  rw [mem_sortDesc, List.mem_append] at hit
  rcases hit with hit | hit
  · rw [List.mem_map] at hit
    obtain ⟨e, he, rfl⟩ := hit
    exact hids e he
  · unfold listSystemTrashItems at hit
    rw [List.mem_map] at hit
    obtain ⟨x, -, rfl⟩ := hit
    intro hcontra
    rw [← hcontra] at hsys
    rw [strStarts_encode_sys] at hsys
    exact Bool.true_eq_false.mp hsys

/-- Witness for C1 at a concrete state: one file soft-deleted and
restored. -/
theorem moveToTrash_restore_roundtrip_witness :
    (moveToTrash "/" "u1" 5 ⟨[("/a/f.txt", FObj.file 9)], [], [], []⟩ "/a/f.txt").1 = true ∧
    (restoreFromTrash
      (moveToTrash "/" "u1" 5 ⟨[("/a/f.txt", FObj.file 9)], [], [], []⟩ "/a/f.txt").2 "u1").1 = true ∧
    lookupFs
      (restoreFromTrash
        (moveToTrash "/" "u1" 5 ⟨[("/a/f.txt", FObj.file 9)], [], [], []⟩ "/a/f.txt").2 "u1").2.fsOutside
      (resolveP "/" "/a/f.txt") = some (FObj.file 9) ∧
    lookupFs
      (restoreFromTrash
        (moveToTrash "/" "u1" 5 ⟨[("/a/f.txt", FObj.file 9)], [], [], []⟩ "/a/f.txt").2 "u1").2.trashFiles
      ("u1" ++ "_" ++ basename (resolveP "/" "/a/f.txt")) = none ∧
    ∀ it ∈ listTrashItems "/Users/u" 6
      (restoreFromTrash
        (moveToTrash "/" "u1" 5 ⟨[("/a/f.txt", FObj.file 9)], [], [], []⟩ "/a/f.txt").2 "u1").2,
      it.id ≠ "u1" :=
  moveToTrash_restore_roundtrip "/" "/Users/u" "u1" "/a/f.txt" 5 6
    ⟨[("/a/f.txt", FObj.file 9)], [], [], []⟩ (FObj.file 9)
    (by decide) (by decide) (by decide) (by decide) (by decide) (by decide)


-- ── C2 ──────────────────────────────────────────────────────────────

mutual
/-- Value invariant over a node: when the `children` field is present
(nonempty forest), `value` equals the sum of the children's values, and
the invariant holds recursively in every child. -/
def sumOk : VizNode → Prop
  | .mk _ v _ _ c => (c ≠ .nil → v = sumForest c) ∧ sumOkF c

/-- Value invariant over a forest. -/
def sumOkF : VizForest → Prop
  | .nil => True
  | .cons n f => sumOk n ∧ sumOkF f
end

theorem sumOk_leaf (i : String) (v : Nat) (p c : Option String) :
    sumOk (.mk i v p c .nil) :=
  ⟨fun h => absurd rfl h, trivial⟩

theorem sumOk_mk_sum (i : String) (p c : Option String) (f : VizForest)
    (hf : sumOkF f) : sumOk (.mk i (sumForest f) p c f) :=
  ⟨fun _ => rfl, hf⟩

theorem sumOkF_single (n : VizNode) (hn : sumOk n) : sumOkF (.cons n .nil) :=
  ⟨hn, trivial⟩

theorem sumOkF_append : (f g : VizForest) → sumOkF f → sumOkF g → sumOkF (VizForest.append f g)
  | .nil, _, _, hg => hg
  | .cons _ f, g, hfg, hg =>
    ⟨hfg.1, sumOkF_append f g hfg.2 hg⟩

mutual
theorem sumOk_buildW (r : Nat → String) (k : Nat) (cp nm : String)
    (t : FsTree) (d : Nat) : sumOk (WorkerScan.buildNode r k cp nm t d).1 := by
  match t with
  | .file s => exact sumOk_leaf _ _ _ _
  | .dir es =>
    have ih := sumOkF_processW r k cp es d
    simp only [WorkerScan.buildNode]
    apply sumOk_mk_sum
    split
    · apply sumOkF_append
      · split
        · exact sumOkF_append _ _ ih (sumOkF_single _ (sumOk_leaf _ _ _ _))
        · exact ih
      · exact sumOkF_single _ (sumOk_leaf _ _ _ _)
    · split
      · exact sumOkF_append _ _ ih (sumOkF_single _ (sumOk_leaf _ _ _ _))
      · exact ih

theorem sumOkF_processW (r : Nat → String) (k : Nat) (cp : String)
    (es : FsEntries) (d : Nat) :
    sumOkF (WorkerScan.processEntries r k cp es d).1 := by
  match es with
  | .nil => exact trivial
  | .cons n t rest =>
    match t with
    | .dir sub =>
      simp only [WorkerScan.processEntries]
      split
      · exact sumOkF_processW r k cp rest d
      · split
        · exact sumOkF_processW r k cp rest d
        · exact ⟨sumOk_buildW r k (cp ++ "/" ++ n) _ (.dir sub) (d - 1),
            sumOkF_processW r _ cp rest d⟩
    | .file s =>
      simp only [WorkerScan.processEntries]
      split
      · exact sumOkF_processW r k cp rest d
      · exact ⟨sumOk_leaf _ _ _ _, sumOkF_processW r k cp rest d⟩
end

mutual
theorem sumOk_buildV (cp nm : String) (t : FsTree) (d : Nat) :
    sumOk (DiskViz.buildNode cp nm t d) := by
  match t with
  | .file s => exact sumOk_leaf _ _ _ _
  | .dir es =>
    have ih := sumOkF_processV cp es d
    simp only [DiskViz.buildNode]
    apply sumOk_mk_sum
    split
    · apply sumOkF_append
      · split
        · exact sumOkF_append _ _ ih (sumOkF_single _ (sumOk_leaf _ _ _ _))
        · exact ih
      · exact sumOkF_single _ (sumOk_leaf _ _ _ _)
    · split
      · exact sumOkF_append _ _ ih (sumOkF_single _ (sumOk_leaf _ _ _ _))
      · exact ih

theorem sumOkF_processV (cp : String) (es : FsEntries) (d : Nat) :
    sumOkF (DiskViz.processEntries cp es d).1 := by
  match es with
  | .nil => exact trivial
  | .cons n t rest =>
    match t with
    | .file s =>
      simp only [DiskViz.processEntries]
      split
      · exact sumOkF_processV cp rest d
      · exact ⟨sumOk_buildV (cp ++ "/" ++ n) _ (.file s) 0, sumOkF_processV cp rest d⟩
    | .dir sub =>
      simp only [DiskViz.processEntries]
      split
      · exact sumOkF_processV cp rest d
      · exact ⟨sumOk_buildV (cp ++ "/" ++ n) _ (.dir sub) (d - 1), sumOkF_processV cp rest d⟩
end

/-- C2: in every tree either builder returns, every node carrying a
`children` list has `value` equal to the sum of its children's values
(`sumOk` holds recursively at every node), and a node built from a
non-directory file — at top level or, in both builders, where file
entries are turned into leaves by the same code path — has `value` equal
to the file's `stat` size. -/
theorem value_invariant_and_leaf_sizes :
    (∀ (r : Nat → String) (k : Nat) (cp nm : String) (t : FsTree) (d : Nat),
      sumOk (WorkerScan.buildNode r k cp nm t d).1) ∧
    (∀ (cp nm : String) (t : FsTree) (d : Nat), sumOk (DiskViz.buildNode cp nm t d)) ∧
    (∀ (r : Nat → String) (k : Nat) (cp nm : String) (s d : Nat),
      (WorkerScan.buildNode r k cp nm (.file s) d).1.value = s) ∧
    (∀ (cp nm : String) (s d : Nat), (DiskViz.buildNode cp nm (.file s) d).value = s) :=
  ⟨fun r k cp nm t d => sumOk_buildW r k cp nm t d,
   fun cp nm t d => sumOk_buildV cp nm t d,
   fun _ _ _ _ _ _ => rfl,
   fun _ _ _ _ => rfl⟩


-- ── C10 ─────────────────────────────────────────────────────────────

/-- C10: in the worker tree builder that the scan request actually runs,
a directory entry whose name is in `IGNORE_DIRS` (`node_modules`, `.git`,
`.next`, `dist`, `build`, `.cache`, `Library`) is unconditionally folded
into the `otherFolderSize` running total — its recursive size still
counted — and contributes no child node, for every size and every
remaining depth. -/
theorem ignored_dir_always_folded (r : Nat → String) (k : Nat) (cp n : String)
    (sub rest : FsEntries) (d : Nat) (hig : shouldIgnoreDir n = true) :
    WorkerScan.processEntries r k cp (.cons n (.dir sub) rest) d =
      ((WorkerScan.processEntries r k cp rest d).1,
       getPathSize (.dir sub) + (WorkerScan.processEntries r k cp rest d).2.1,
       (WorkerScan.processEntries r k cp rest d).2.2.1,
       (WorkerScan.processEntries r k cp rest d).2.2.2) := by
  simp [WorkerScan.processEntries, hig]

/-- Witness for C10: a 9 MB `node_modules` at remaining depth 3 produces
no child node and lands entirely in the folder bucket. -/
theorem ignored_dir_always_folded_witness :
    WorkerScan.processEntries (fun _ => "R") 0 "/r"
      (.cons "node_modules" (.dir (.cons "x" (.file 9437184) .nil)) .nil) 3
    = (.nil, 9437184, 0, 0) := by
  rw [ignored_dir_always_folded (fun _ => "R") 0 "/r" "node_modules"
    (.cons "x" (.file 9437184) .nil) .nil 3 (by decide)]
  rfl

-- ── C5 ──────────────────────────────────────────────────────────────

/-- C5 counterexample: in the worker builder, the folding rule is not an
`iff`: the `node_modules` entry below has exact size 2 MB (≥ the 1 MB
threshold) at remaining depth 1 (> 0), so the claim requires it to be
recursed into with depth 0; the code folds it into "Other Folders"
because its name is in `IGNORE_DIRS`, and the built node has only the
bucket child. -/
theorem folding_rule_fails_on_ignored_dir :
    (¬ (1 ≤ 0 ∨ getPathSize (.dir (.cons "x" (.file 2097152) .nil)) < SMALL_FOLDER_BYTES)) ∧
    (WorkerScan.buildNode (fun _ => "R") 0 "/r" "r"
      (.dir (.cons "node_modules" (.dir (.cons "x" (.file 2097152) .nil)) .nil)) 1).1
    = .mk "r" 2097152 (some "/r") (some "folder")
        (.cons (.mk "other-folders-R" 2097152 (some "/r") (some "other") .nil) .nil) :=
  ⟨by decide, by rfl⟩

/-- C5 (amended): for every directory entry whose name is **not** in the
worker's `IGNORE_DIRS`, the exact recursive size is computed first and
the entry is folded into "Other Folders" — no recursion, no child — iff
`remainingDepth ≤ 0` or that size is below 1 MB, and otherwise recursed
into with `remainingDepth - 1`; ignore-listed names are always folded
regardless of size or depth (see the C10 theorem).  In the
`diskVizScanner` builder the stated iff holds for every directory entry
unconditionally: the last two conjuncts carry no ignore-list
hypothesis and cover ignore-listed names too. -/
theorem folding_rule (r : Nat → String) (k : Nat) (cp n : String)
    (sub rest : FsEntries) (d : Nat) :
    (shouldIgnoreDir n = false →
      (d ≤ 0 ∨ getPathSize (.dir sub) < SMALL_FOLDER_BYTES) →
      WorkerScan.processEntries r k cp (.cons n (.dir sub) rest) d =
        ((WorkerScan.processEntries r k cp rest d).1,
         getPathSize (.dir sub) + (WorkerScan.processEntries r k cp rest d).2.1,
         (WorkerScan.processEntries r k cp rest d).2.2.1,
         (WorkerScan.processEntries r k cp rest d).2.2.2)) ∧
    (shouldIgnoreDir n = false →
      ¬ (d ≤ 0 ∨ getPathSize (.dir sub) < SMALL_FOLDER_BYTES) →
      WorkerScan.processEntries r k cp (.cons n (.dir sub) rest) d =
        (.cons (WorkerScan.buildNode r k (cp ++ "/" ++ n)
            (if n = "" then "unnamed" else n) (.dir sub) (d - 1)).1
          (WorkerScan.processEntries r
            (WorkerScan.buildNode r k (cp ++ "/" ++ n)
              (if n = "" then "unnamed" else n) (.dir sub) (d - 1)).2 cp rest d).1,
         (WorkerScan.processEntries r
            (WorkerScan.buildNode r k (cp ++ "/" ++ n)
              (if n = "" then "unnamed" else n) (.dir sub) (d - 1)).2 cp rest d).2.1,
         (WorkerScan.processEntries r
            (WorkerScan.buildNode r k (cp ++ "/" ++ n)
              (if n = "" then "unnamed" else n) (.dir sub) (d - 1)).2 cp rest d).2.2.1,
         (WorkerScan.processEntries r
            (WorkerScan.buildNode r k (cp ++ "/" ++ n)
              (if n = "" then "unnamed" else n) (.dir sub) (d - 1)).2 cp rest d).2.2.2)) ∧
    ((d ≤ 0 ∨ getPathSize (.dir sub) < SMALL_FOLDER_BYTES) →
      DiskViz.processEntries cp (.cons n (.dir sub) rest) d =
        ((DiskViz.processEntries cp rest d).1,
         getPathSize (.dir sub) + (DiskViz.processEntries cp rest d).2.1,
         (DiskViz.processEntries cp rest d).2.2)) ∧
    (¬ (d ≤ 0 ∨ getPathSize (.dir sub) < SMALL_FOLDER_BYTES) →
      DiskViz.processEntries cp (.cons n (.dir sub) rest) d =
        (.cons (DiskViz.buildNode (cp ++ "/" ++ n)
            (if n = "" then "unnamed" else n) (.dir sub) (d - 1))
          (DiskViz.processEntries cp rest d).1,
         (DiskViz.processEntries cp rest d).2.1,
         (DiskViz.processEntries cp rest d).2.2)) := by
  refine ⟨?_, ?_, ?_, ?_⟩
  · intro hig h
    simp only [WorkerScan.processEntries, hig, Bool.false_eq_true, if_false]
    rw [if_pos h]
  · intro hig h
    simp only [WorkerScan.processEntries, hig, Bool.false_eq_true, if_false]
    rw [if_neg h]
  · intro h
    simp only [DiskViz.processEntries]
    rw [if_pos h]
  · intro h
    simp only [DiskViz.processEntries]
    rw [if_neg h]

/-- Witness for C5's amended theorem: a 500 KB subdirectory at remaining
depth 1 is folded even though depth budget remains (the spec's own
example), in both builders; and `diskVizScanner`, whose iff carries no
ignore-list exception, recurses into a 2 MB `node_modules` at depth 1 —
the very entry the worker folds. -/
theorem folding_rule_witness :
    WorkerScan.processEntries (fun _ => "R") 0 "/r"
      (.cons "sub" (.dir (.cons "x" (.file 512000) .nil)) .nil) 1
    = (.nil, 512000, 0, 0) ∧
    DiskViz.processEntries "/r"
      (.cons "sub" (.dir (.cons "x" (.file 512000) .nil)) .nil) 1
    = (.nil, 512000, 0) ∧
    DiskViz.processEntries "/r"
      (.cons "node_modules" (.dir (.cons "x" (.file 2097152) .nil)) .nil) 1
    = (.cons (.mk "node_modules" 2097152 (some "/r/node_modules") (some "folder")
        (.cons (.mk "Misc / Other" 2097152 (some "/r/node_modules") (some "other") .nil) .nil))
        .nil, 0, 0) := by
  refine ⟨?_, ?_, ?_⟩
  · rw [(folding_rule (fun _ => "R") 0 "/r" "sub"
      (.cons "x" (.file 512000) .nil) .nil 1).1 (by decide) (by decide)]
    rfl
  · rw [(folding_rule (fun _ => "R") 0 "/r" "sub"
      (.cons "x" (.file 512000) .nil) .nil 1).2.2.1 (by decide)]
    rfl
  · rw [(folding_rule (fun _ => "R") 0 "/r" "node_modules"
      (.cons "x" (.file 2097152) .nil) .nil 1).2.2.2 (by decide)]
    rfl


-- ── C7 ──────────────────────────────────────────────────────────────

theorem appendF_nil : (f : VizForest) → VizForest.append f .nil = f
  | .nil => rfl
  | .cons n f => congrArg (VizForest.cons n) (appendF_nil f)

/-- C7: every file entry strictly below 5 MB is accumulated into the
per-directory "Misc / Other" running total instead of becoming its own
node (third and fourth conjuncts, for the worker and the
`diskVizScanner` builder); the nonzero buckets are appended after the
per-entry children (fifth and sixth conjuncts); and for a directory of
ten 1 KB files at `maxDepth = 2` the built node has exactly one child,
the "Misc / Other" bucket with value 10240 (`misc-other-` plus the
random suffix in the worker), and no individual file nodes (first and
second conjuncts). -/
theorem small_files_bucketed :
    DiskViz.buildNode "/r" "r"
      (.dir (.cons "f0" (.file 1024) (.cons "f1" (.file 1024) (.cons "f2" (.file 1024)
        (.cons "f3" (.file 1024) (.cons "f4" (.file 1024) (.cons "f5" (.file 1024)
        (.cons "f6" (.file 1024) (.cons "f7" (.file 1024) (.cons "f8" (.file 1024)
        (.cons "f9" (.file 1024) .nil))))))))))) 2
      = .mk "r" 10240 (some "/r") (some "folder")
          (.cons (.mk "Misc / Other" 10240 (some "/r") (some "other") .nil) .nil) ∧
    (WorkerScan.buildNode (fun _ => "R") 0 "/r" "r"
      (.dir (.cons "f0" (.file 1024) (.cons "f1" (.file 1024) (.cons "f2" (.file 1024)
        (.cons "f3" (.file 1024) (.cons "f4" (.file 1024) (.cons "f5" (.file 1024)
        (.cons "f6" (.file 1024) (.cons "f7" (.file 1024) (.cons "f8" (.file 1024)
        (.cons "f9" (.file 1024) .nil))))))))))) 2).1
      = .mk "r" 10240 (some "/r") (some "folder")
          (.cons (.mk "misc-other-R" 10240 (some "/r") (some "other") .nil) .nil) ∧
    (∀ (r : Nat → String) (k : Nat) (cp n : String) (s : Nat) (rest : FsEntries) (d : Nat),
      s < SMALL_FILE_BYTES →
      WorkerScan.processEntries r k cp (.cons n (.file s) rest) d =
        ((WorkerScan.processEntries r k cp rest d).1,
         (WorkerScan.processEntries r k cp rest d).2.1,
         s + (WorkerScan.processEntries r k cp rest d).2.2.1,
         (WorkerScan.processEntries r k cp rest d).2.2.2)) ∧
    (∀ (cp n : String) (s : Nat) (rest : FsEntries) (d : Nat),
      s < SMALL_FILE_BYTES →
      DiskViz.processEntries cp (.cons n (.file s) rest) d =
        ((DiskViz.processEntries cp rest d).1,
         (DiskViz.processEntries cp rest d).2.1,
         s + (DiskViz.processEntries cp rest d).2.2)) ∧
    (∀ (r : Nat → String) (k : Nat) (cp nm : String) (es : FsEntries) (d : Nat),
      (WorkerScan.buildNode r k cp nm (.dir es) d).1.children =
        VizForest.append
          (VizForest.append (WorkerScan.processEntries r k cp es d).1
            (if (WorkerScan.processEntries r k cp es d).2.2.1 > 0 then
              .cons (.mk ("misc-other-" ++ r (WorkerScan.processEntries r k cp es d).2.2.2)
                (WorkerScan.processEntries r k cp es d).2.2.1 (some cp) (some "other") .nil) .nil
             else .nil))
          (if (WorkerScan.processEntries r k cp es d).2.1 > 0 then
            .cons (.mk ("other-folders-" ++
                r (if (WorkerScan.processEntries r k cp es d).2.2.1 > 0 then
                    (WorkerScan.processEntries r k cp es d).2.2.2 + 1
                  else (WorkerScan.processEntries r k cp es d).2.2.2))
              (WorkerScan.processEntries r k cp es d).2.1 (some cp) (some "other") .nil) .nil
           else .nil)) ∧
    (∀ (cp nm : String) (es : FsEntries) (d : Nat),
      (DiskViz.buildNode cp nm (.dir es) d).children =
        VizForest.append
          (VizForest.append (DiskViz.processEntries cp es d).1
            (if (DiskViz.processEntries cp es d).2.2 > 0 then
              .cons (.mk "Misc / Other" (DiskViz.processEntries cp es d).2.2
                (some cp) (some "other") .nil) .nil
             else .nil))
          (if (DiskViz.processEntries cp es d).2.1 > 0 then
            .cons (.mk "Other Folders" (DiskViz.processEntries cp es d).2.1
              (some cp) (some "other") .nil) .nil
           else .nil)) := by
  refine ⟨by rfl, by rfl, ?_, ?_, ?_, ?_⟩
  · intro r k cp n s rest d h
    simp only [WorkerScan.processEntries]
    rw [if_pos h]
  · intro cp n s rest d h
    simp only [DiskViz.processEntries]
    rw [if_pos h]
  · intro r k cp nm es d
    simp only [WorkerScan.buildNode, VizNode.children]
    by_cases hm : (WorkerScan.processEntries r k cp es d).2.2.1 > 0 <;>
      by_cases ho : (WorkerScan.processEntries r k cp es d).2.1 > 0 <;>
      simp [hm, ho, appendF_nil]
  · intro cp nm es d
    simp only [DiskViz.buildNode, VizNode.children]
    by_cases hm : (DiskViz.processEntries cp es d).2.2 > 0 <;>
      by_cases ho : (DiskViz.processEntries cp es d).2.1 > 0 <;>
      simp [hm, ho, appendF_nil]

/-- Witness for C7: the small-file accumulation conjuncts instantiated
at a concrete 1 KB file. -/
theorem small_files_bucketed_witness :
    WorkerScan.processEntries (fun _ => "R") 0 "/r" (.cons "a.txt" (.file 1024) .nil) 2
      = (.nil, 0, 1024, 0) ∧
    DiskViz.processEntries "/r" (.cons "a.txt" (.file 1024) .nil) 2
      = (.nil, 0, 1024) := by
  constructor
  · rw [small_files_bucketed.2.2.1 (fun _ => "R") 0 "/r" "a.txt" 1024 .nil 2 (by decide)]
    rfl
  · rw [small_files_bucketed.2.2.2.1 "/r" "a.txt" 1024 .nil 2 (by decide)]
    rfl


-- ── C6 ──────────────────────────────────────────────────────────────

/-- The id of the first child of a node (`""` when childless); used to
exhibit concrete differences between two builds. -/
def headId (n : VizNode) : String :=
  match n.children with
  | .nil => ""
  | .cons h _ => h.id

/-- C6 counterexample: two builds of the same unchanged tree by the
worker builder (the one the scan request runs) disagree on the bucket
node's id, because the id embeds a fresh `Math.random()` suffix per
build: with draw `"aaa"` the only child is `misc-other-aaa`, with draw
`"bbb"` it is `misc-other-bbb`, so the trees are not identical. -/
theorem worker_build_not_idempotent :
    headId (WorkerScan.buildNode (fun _ => "aaa") 0 "/r" "r"
      (.dir (.cons "a.txt" (.file 7) .nil)) 2).1 = "misc-other-aaa" ∧
    headId (WorkerScan.buildNode (fun _ => "bbb") 0 "/r" "r"
      (.dir (.cons "a.txt" (.file 7) .nil)) 2).1 = "misc-other-bbb" ∧
    (WorkerScan.buildNode (fun _ => "aaa") 0 "/r" "r"
      (.dir (.cons "a.txt" (.file 7) .nil)) 2).1
      ≠ (WorkerScan.buildNode (fun _ => "bbb") 0 "/r" "r"
        (.dir (.cons "a.txt" (.file 7) .nil)) 2).1 := by
  refine ⟨rfl, rfl, ?_⟩
  intro h
  have h2 := congrArg headId h
  revert h2
  decide

/-- Normalizes a bucket id by stripping the random suffix: ids beginning
`misc-other-` or `other-folders-` collapse to the bare tag; all other
ids are untouched. -/
def normId (s : String) : String :=
  if strStarts "misc-other-" s then "misc-other-"
  else if strStarts "other-folders-" s then "other-folders-" else s

mutual
/-- Applies `normId` to every id in a node, recursively. -/
def normBuckets : VizNode → VizNode
  | .mk i v p c f => .mk (normId i) v p c (normBucketsF f)

/-- Forest version of `normBuckets`. -/
def normBucketsF : VizForest → VizForest
  | .nil => .nil
  | .cons n f => .cons (normBuckets n) (normBucketsF f)
end

theorem misc_not_starts_other (x : String) :
    strStarts "misc-other-" ("other-folders-" ++ x) = false := by
  unfold strStarts
  rw [String.data_append]
  have h1 : ("misc-other-" : String).data = 'm' :: "isc-other-".data := rfl
  have h2 : ("other-folders-" : String).data = 'o' :: "ther-folders-".data := rfl
  rw [h1, h2, List.cons_append]
  simp [listStarts]

theorem normId_misc (x : String) : normId ("misc-other-" ++ x) = "misc-other-" := by
  simp [normId, strStarts_append_self]

theorem normId_other (x : String) : normId ("other-folders-" ++ x) = "other-folders-" := by
  simp [normId, misc_not_starts_other, strStarts_append_self]

theorem value_normB : (n : VizNode) → (normBuckets n).value = n.value
  | .mk _ _ _ _ _ => rfl

theorem normBF_append : (f g : VizForest) →
    normBucketsF (VizForest.append f g) =
      VizForest.append (normBucketsF f) (normBucketsF g)
  | .nil, _ => rfl
  | .cons n f, g => by
    simp only [VizForest.append, normBucketsF]
    rw [normBF_append f g]

theorem sumForest_normBF : (f : VizForest) → sumForest (normBucketsF f) = sumForest f
  | .nil => rfl
  | .cons n f => by
    simp only [normBucketsF, sumForest]
    rw [value_normB, sumForest_normBF f]

/-- Normalization of the bucket-appending step of the worker `buildNode`
is independent of the random suffixes and of everything else that may
differ between two runs over the same tree. -/
theorem normBF_with_buckets (cp : String) (fa fb : VizForest) (oa ob ma mb : Nat)
    (s1 s2 t1 t2 : String)
    (hf : normBucketsF fa = normBucketsF fb) (ho : oa = ob) (hm : ma = mb) :
    normBucketsF
      (if oa > 0 then
        VizForest.append
          (if ma > 0 then
            VizForest.append fa
              (.cons (.mk ("misc-other-" ++ s1) ma (some cp) (some "other") .nil) .nil)
           else fa)
          (.cons (.mk ("other-folders-" ++ s2) oa (some cp) (some "other") .nil) .nil)
       else
        (if ma > 0 then
          VizForest.append fa
            (.cons (.mk ("misc-other-" ++ s1) ma (some cp) (some "other") .nil) .nil)
         else fa)) =
    normBucketsF
      (if ob > 0 then
        VizForest.append
          (if mb > 0 then
            VizForest.append fb
              (.cons (.mk ("misc-other-" ++ t1) mb (some cp) (some "other") .nil) .nil)
           else fb)
          (.cons (.mk ("other-folders-" ++ t2) ob (some cp) (some "other") .nil) .nil)
       else
        (if mb > 0 then
          VizForest.append fb
            (.cons (.mk ("misc-other-" ++ t1) mb (some cp) (some "other") .nil) .nil)
         else fb)) := by
  subst ho
  subst hm
  by_cases hO : oa > 0 <;> by_cases hM : ma > 0 <;>
    simp [hO, hM, normBF_append, normBucketsF, normBuckets, normId_misc, normId_other, hf]

mutual
theorem normB_buildW_indep (r1 r2 : Nat → String) (k1 k2 : Nat) (cp nm : String)
    (t : FsTree) (d : Nat) :
    normBuckets (WorkerScan.buildNode r1 k1 cp nm t d).1 =
      normBuckets (WorkerScan.buildNode r2 k2 cp nm t d).1 := by
  match t with
  | .file _ => rfl
  | .dir es =>
    obtain ⟨ihf, iho, ihm⟩ := normBF_processW_indep r1 r2 k1 k2 cp es d
    simp only [WorkerScan.buildNode, normBuckets]
    have hch :
        normBucketsF
          (if (WorkerScan.processEntries r1 k1 cp es d).2.1 > 0 then
            VizForest.append
              (if (WorkerScan.processEntries r1 k1 cp es d).2.2.1 > 0 then
                VizForest.append (WorkerScan.processEntries r1 k1 cp es d).1
                  (.cons (.mk ("misc-other-" ++ r1 (WorkerScan.processEntries r1 k1 cp es d).2.2.2)
                    (WorkerScan.processEntries r1 k1 cp es d).2.2.1 (some cp) (some "other") .nil) .nil)
               else (WorkerScan.processEntries r1 k1 cp es d).1)
              (.cons (.mk ("other-folders-" ++
                  r1 (if (WorkerScan.processEntries r1 k1 cp es d).2.2.1 > 0 then
                      (WorkerScan.processEntries r1 k1 cp es d).2.2.2 + 1
                    else (WorkerScan.processEntries r1 k1 cp es d).2.2.2))
                (WorkerScan.processEntries r1 k1 cp es d).2.1 (some cp) (some "other") .nil) .nil)
           else
            (if (WorkerScan.processEntries r1 k1 cp es d).2.2.1 > 0 then
              VizForest.append (WorkerScan.processEntries r1 k1 cp es d).1
                (.cons (.mk ("misc-other-" ++ r1 (WorkerScan.processEntries r1 k1 cp es d).2.2.2)
                  (WorkerScan.processEntries r1 k1 cp es d).2.2.1 (some cp) (some "other") .nil) .nil)
             else (WorkerScan.processEntries r1 k1 cp es d).1)) =
        normBucketsF
          (if (WorkerScan.processEntries r2 k2 cp es d).2.1 > 0 then
            VizForest.append
              (if (WorkerScan.processEntries r2 k2 cp es d).2.2.1 > 0 then
                VizForest.append (WorkerScan.processEntries r2 k2 cp es d).1
                  (.cons (.mk ("misc-other-" ++ r2 (WorkerScan.processEntries r2 k2 cp es d).2.2.2)
                    (WorkerScan.processEntries r2 k2 cp es d).2.2.1 (some cp) (some "other") .nil) .nil)
               else (WorkerScan.processEntries r2 k2 cp es d).1)
              (.cons (.mk ("other-folders-" ++
                  r2 (if (WorkerScan.processEntries r2 k2 cp es d).2.2.1 > 0 then
                      (WorkerScan.processEntries r2 k2 cp es d).2.2.2 + 1
                    else (WorkerScan.processEntries r2 k2 cp es d).2.2.2))
                (WorkerScan.processEntries r2 k2 cp es d).2.1 (some cp) (some "other") .nil) .nil)
           else
            (if (WorkerScan.processEntries r2 k2 cp es d).2.2.1 > 0 then
              VizForest.append (WorkerScan.processEntries r2 k2 cp es d).1
                (.cons (.mk ("misc-other-" ++ r2 (WorkerScan.processEntries r2 k2 cp es d).2.2.2)
                  (WorkerScan.processEntries r2 k2 cp es d).2.2.1 (some cp) (some "other") .nil) .nil)
             else (WorkerScan.processEntries r2 k2 cp es d).1)) :=
      normBF_with_buckets cp _ _ _ _ _ _ _ _ _ _ ihf iho ihm
    rw [hch]
    have hv := congrArg sumForest hch
    rw [sumForest_normBF, sumForest_normBF] at hv
    rw [hv]

theorem normBF_processW_indep (r1 r2 : Nat → String) (k1 k2 : Nat) (cp : String)
    (es : FsEntries) (d : Nat) :
    normBucketsF (WorkerScan.processEntries r1 k1 cp es d).1 =
      normBucketsF (WorkerScan.processEntries r2 k2 cp es d).1 ∧
    (WorkerScan.processEntries r1 k1 cp es d).2.1 =
      (WorkerScan.processEntries r2 k2 cp es d).2.1 ∧
    (WorkerScan.processEntries r1 k1 cp es d).2.2.1 =
      (WorkerScan.processEntries r2 k2 cp es d).2.2.1 := by
  match es with
  | .nil => exact ⟨rfl, rfl, rfl⟩
  | .cons n t rest =>
    match t with
    | .dir sub =>
      by_cases hig : shouldIgnoreDir n = true
      · obtain ⟨ihf, iho, ihm⟩ := normBF_processW_indep r1 r2 k1 k2 cp rest d
        simp only [WorkerScan.processEntries]
        rw [if_pos hig, if_pos hig]
        exact ⟨ihf, by rw [iho], ihm⟩
      · by_cases hc : d ≤ 0 ∨ getPathSize (.dir sub) < SMALL_FOLDER_BYTES
        · obtain ⟨ihf, iho, ihm⟩ := normBF_processW_indep r1 r2 k1 k2 cp rest d
          simp only [WorkerScan.processEntries]
          rw [if_neg hig, if_neg hig, if_pos hc, if_pos hc]
          exact ⟨ihf, by rw [iho], ihm⟩
        · obtain ⟨ihf, iho, ihm⟩ := normBF_processW_indep r1 r2
            (WorkerScan.buildNode r1 k1 (cp ++ "/" ++ n)
              (if n = "" then "unnamed" else n) (.dir sub) (d - 1)).2
            (WorkerScan.buildNode r2 k2 (cp ++ "/" ++ n)
              (if n = "" then "unnamed" else n) (.dir sub) (d - 1)).2 cp rest d
          have ihb := normB_buildW_indep r1 r2 k1 k2 (cp ++ "/" ++ n)
            (if n = "" then "unnamed" else n) (.dir sub) (d - 1)
          simp only [WorkerScan.processEntries]
          rw [if_neg hig, if_neg hig, if_neg hc, if_neg hc]
          refine ⟨?_, iho, ihm⟩
          simp only [normBucketsF]
          rw [ihb, ihf]
    | .file s =>
      by_cases hs : s < SMALL_FILE_BYTES
      · obtain ⟨ihf, iho, ihm⟩ := normBF_processW_indep r1 r2 k1 k2 cp rest d
        simp only [WorkerScan.processEntries]
        rw [if_pos hs, if_pos hs]
        exact ⟨ihf, iho, by rw [ihm]⟩
      · obtain ⟨ihf, iho, ihm⟩ := normBF_processW_indep r1 r2 k1 k2 cp rest d
        simp only [WorkerScan.processEntries]
        rw [if_neg hs, if_neg hs]
        refine ⟨?_, iho, ihm⟩
        simp only [normBucketsF]
        rw [ihf]
end

/-- C6 (amended): in the worker builder two builds of an unchanged tree
with the same path and depth agree on all values, paths, categories,
child counts and ordering, and on every id except the synthetic bucket
ids, which embed a per-build random suffix: after collapsing
`misc-other-*` / `other-folders-*` ids to their bare tags the two trees
are identical, and every node's `value` is build-independent outright.
(The `diskVizScanner` builder has no random input in its embedding — it
is a pure function of the tree, path, name and depth — so its builds are
identical by construction.) -/
theorem build_idempotent_up_to_bucket_ids :
    (∀ (r1 r2 : Nat → String) (k1 k2 : Nat) (cp nm : String) (t : FsTree) (d : Nat),
      normBuckets (WorkerScan.buildNode r1 k1 cp nm t d).1 =
        normBuckets (WorkerScan.buildNode r2 k2 cp nm t d).1) ∧
    (∀ (r1 r2 : Nat → String) (k1 k2 : Nat) (cp nm : String) (t : FsTree) (d : Nat),
      (WorkerScan.buildNode r1 k1 cp nm t d).1.value =
        (WorkerScan.buildNode r2 k2 cp nm t d).1.value) := by
  refine ⟨fun r1 r2 k1 k2 cp nm t d => normB_buildW_indep r1 r2 k1 k2 cp nm t d, ?_⟩
  intro r1 r2 k1 k2 cp nm t d
  have h := congrArg VizNode.value (normB_buildW_indep r1 r2 k1 k2 cp nm t d)
  rwa [value_normB, value_normB] at h

end FileOrganizer
